import Mathlib

/-
  Verification development for the media-worker repository.

  Shallow embedding of the coordination-store procedures (Postgres
  functions in supabase/migrations), the worker-side services
  (src/services/*.ts) and the timebase library (dist/lib/timebase.js).

  Conventions of the embedding:
  * SQL tables are association lists of rows; an SQL `UPDATE ... WHERE p`
    is `List.map` applying the SET clause to the rows satisfying `p`, and
    its affected-row count is `List.countP p`.
  * Timestamps are integers counting seconds (the SQL interval constants
    are in seconds; the millisecond constants of the TypeScript side are
    scaled accordingly, e.g. the 30000 ms claim-cache window is 30).
  * UUIDs and row ids are `Nat`.  The `id::TEXT` cast in
    cleanup_stale_workers is the identity under this encoding.
-/

set_option maxRecDepth 8192

namespace MediaWorker

/-! ## Data model (store rows) -/

/-- Room lifecycle status (rooms.status). -/
inductive RoomStatus
  | pending
  | active
  | processing
  | completed
  | closed
  deriving DecidableEq, Repr

/-- Worker lifecycle status (media_workers.status); the valid values per
the check constraint are active, idle, stopping, stopped. -/
inductive WorkerStatus
  | active
  | idle
  | stopping
  | stopped
  deriving DecidableEq, Repr

/-- A row of the rooms table, restricted to the columns the verified
operations read or write. -/
structure RoomRow where
  id : Nat
  media_worker_id : Option Nat
  worker_claimed_at : Option Int
  media_worker_heartbeat : Option Int
  status : RoomStatus
  closed_at : Option Int
  timebase_started_at : Option Int
  transcription_enabled : Bool
  created_at : Int
  deriving DecidableEq, Repr

/-- A row of the media_workers table. -/
structure WorkerRow where
  id : Nat
  status : WorkerStatus
  current_room_id : Option Nat
  last_heartbeat : Int
  deriving DecidableEq, Repr

/-- A row of the participants table (columns touched by finalization). -/
structure ParticipantRow where
  id : Nat
  room_id : Nat
  is_active : Bool
  left_at : Option Int
  deriving DecidableEq, Repr

/-- A row of the post_call_jobs table (columns written by the worker's
fallback job scheduler). -/
structure JobRow where
  room_id : Nat
  job_type : String
  priority : Nat
  deriving DecidableEq, Repr

/-- A row of the transcriptions table (columns read by the fallback job
scheduler). -/
structure TranscriptionRow where
  room_id : Nat
  is_final : Bool
  deriving DecidableEq, Repr

/-- The coordination store. -/
structure DB where
  rooms : List RoomRow
  media_workers : List WorkerRow
  participants : List ParticipantRow
  post_call_jobs : List JobRow
  transcriptions : List TranscriptionRow
  deriving DecidableEq, Repr

/-- SELECT ... FROM rooms WHERE id = rid (first row with that id). -/
def lookupRoom (db : DB) (rid : Nat) : Option RoomRow :=
  db.rooms.find? fun r => decide (r.id = rid)

/-- SELECT ... FROM media_workers WHERE id = w (first row with that id). -/
def lookupWorker (db : DB) (w : Nat) : Option WorkerRow :=
  db.media_workers.find? fun wk => decide (wk.id = w)

/-! ## Store procedures (supabase/migrations) -/

/-- The staleness test `media_worker_heartbeat < NOW() - INTERVAL '45
seconds'`; a NULL heartbeat compares to NULL, which is not true. -/
def heartbeatStale (now : Int) (r : RoomRow) : Bool :=
  match r.media_worker_heartbeat with
  | some hb => decide (hb < now - 45)
  | none => false

/-- The WHERE clause of the UPDATE inside claim_room_for_worker
(migration 20260106123634): id matches, the owner is free or stale, and
the status is claimable. -/
def claimWhere (now : Int) (rid : Nat) (r : RoomRow) : Bool :=
  decide (r.id = rid) &&
    (decide (r.media_worker_id = none) || heartbeatStale now r) &&
    (decide (r.status = RoomStatus.pending) || decide (r.status = RoomStatus.active))

/-- The SET clause of claim_room_for_worker's room UPDATE. -/
def claimSet (now : Int) (w : Nat) (r : RoomRow) : RoomRow :=
  { r with media_worker_id := some w, worker_claimed_at := some now,
           media_worker_heartbeat := some now, status := RoomStatus.processing }

/-- The room UPDATE of claim_room_for_worker applied to one row. -/
def claimUpdateRoom (now : Int) (w rid : Nat) (r : RoomRow) : RoomRow :=
  if claimWhere now rid r then claimSet now w r else r

/-- The worker UPDATE of claim_room_for_worker applied to one row. -/
def claimUpdateWorker (now : Int) (w rid : Nat) (wk : WorkerRow) : WorkerRow :=
  if decide (wk.id = w) then
    { wk with current_room_id := some rid, last_heartbeat := now }
  else wk

/-- claim_room_for_worker(p_worker_id, p_room_id) from migration
20260106123634: atomically claim the room, and on success (v_claimed > 0)
also update the worker's current_room_id and last_heartbeat.  Returns
v_claimed > 0. -/
def claim_room_for_worker (now : Int) (w rid : Nat) (db : DB) : Bool × DB :=
  let claimed := db.rooms.countP (claimWhere now rid)
  (decide (0 < claimed),
    { db with
        rooms := db.rooms.map (claimUpdateRoom now w rid),
        media_workers :=
          if 0 < claimed then db.media_workers.map (claimUpdateWorker now w rid)
          else db.media_workers })

/-- The room UPDATE of release_room_from_worker applied to one row. -/
def releaseUpdateRoom (w rid : Nat) (r : RoomRow) : RoomRow :=
  if decide (r.id = rid) && decide (r.media_worker_id = some w) then
    { r with media_worker_id := none, worker_claimed_at := none,
             media_worker_heartbeat := none }
  else r

/-- The worker UPDATE of release_room_from_worker applied to one row. -/
def releaseUpdateWorker (w rid : Nat) (wk : WorkerRow) : WorkerRow :=
  if decide (wk.id = w) && decide (wk.current_room_id = some rid) then
    { wk with current_room_id := none }
  else wk

/-- release_room_from_worker(p_worker_id, p_room_id) from migration
20251230121907: clear the owner columns of the room iff it is currently
owned by the worker, and clear the worker's current_room_id iff it equals
the room. -/
def releaseRoomFromWorker (w rid : Nat) (db : DB) : DB :=
  { db with
      rooms := db.rooms.map (releaseUpdateRoom w rid),
      media_workers := db.media_workers.map (releaseUpdateWorker w rid) }

/-- A media_workers row is stale: status active and heartbeat older than
now minus the threshold. -/
def workerStale (now threshold : Int) (wk : WorkerRow) : Bool :=
  decide (wk.status = WorkerStatus.active) && decide (wk.last_heartbeat < now - threshold)

/-- Ownership test of the rooms UPDATE in cleanup_stale_workers: the
room's owner column appears in the (text-cast) stale id list. -/
def ownedByStale (staleText : List Nat) (r : RoomRow) : Bool :=
  match r.media_worker_id with
  | some x => decide (x ∈ staleText)
  | none => false

/-- The rooms UPDATE of cleanup_stale_workers applied to one row. -/
def reapUpdateRoom (staleText : List Nat) (r : RoomRow) : RoomRow :=
  if ownedByStale staleText r then
    { r with media_worker_id := none, worker_claimed_at := none,
             media_worker_heartbeat := none }
  else r

/-- The workers UPDATE of cleanup_stale_workers applied to one row. -/
def reapUpdateWorker (staleIds : List Nat) (wk : WorkerRow) : WorkerRow :=
  if decide (wk.id ∈ staleIds) then
    { wk with status := WorkerStatus.stopped, current_room_id := none }
  else wk

/-- SELECT ARRAY_AGG(id) FROM media_workers WHERE status = 'active' AND
last_heartbeat < NOW() - threshold. -/
def staleWorkerIds (now threshold : Int) (db : DB) : List Nat :=
  (db.media_workers.filter (workerStale now threshold)).map WorkerRow.id

/-- SELECT id::TEXT FROM media_workers WHERE id = ANY(stale ids) — the
subselect of the rooms UPDATE; the text cast is the identity under the
Nat encoding of ids. -/
def staleTextIds (now threshold : Int) (db : DB) : List Nat :=
  (db.media_workers.filter fun wk =>
    decide (wk.id ∈ staleWorkerIds now threshold db)).map WorkerRow.id

/-- cleanup_stale_workers(p_stale_threshold_seconds) in its final
revision (the unnamed migration that supersedes 20260103082347: it keeps
that migration's id::TEXT cast in the rooms predicate and additionally
marks the reaped workers 'stopped' to satisfy the status check
constraint).  Collect the stale worker ids, release their rooms, mark
them stopped with no current room, and return the row count of the
workers UPDATE. -/
def cleanup_stale_workers (now threshold : Int) (db : DB) : Nat × DB :=
  if (staleWorkerIds now threshold db).isEmpty then (0, db)
  else
    (db.media_workers.countP fun wk => decide (wk.id ∈ staleWorkerIds now threshold db),
      { db with
          rooms := db.rooms.map (reapUpdateRoom (staleTextIds now threshold db)),
          media_workers :=
            db.media_workers.map (reapUpdateWorker (staleWorkerIds now threshold db)) })

/-! ## General list helpers -/

/-- A map whose function fixes every member is the identity. -/
theorem map_eq_self_of_mem {α : Type} {l : List α} {f : α → α}
    (h : ∀ x ∈ l, f x = x) : l.map f = l := by
  induction l with
  | nil => rfl
  | cons a t ih =>
      simp only [List.map_cons]
      rw [h a (List.mem_cons_self a t), ih]
      intro x hx
      exact h x (List.mem_cons_of_mem a hx)

/-- Members of a list with nodup image under f are determined by their
image. -/
theorem nodup_map_mem_inj {α β : Type} {l : List α} {f : α → β}
    (h : (l.map f).Nodup) :
    ∀ x ∈ l, ∀ y ∈ l, f x = f y → x = y := by
  induction l with
  | nil => intro x hx; exact absurd hx (List.not_mem_nil x)
  | cons a t ih =>
      simp only [List.map_cons, List.nodup_cons] at h
      intro x hx y hy hxy
      rcases List.mem_cons.mp hx with hx' | hx' <;>
        rcases List.mem_cons.mp hy with hy' | hy'
      · rw [hx', hy']
      · subst hx'
        exact absurd (hxy ▸ List.mem_map_of_mem f hy') h.1
      · subst hy'
        exact absurd (hxy ▸ List.mem_map_of_mem f hx') h.1
      · exact ih h.2 x hx' y hy' hxy

/-- find?-by-id through a map by an id-preserving row transformation
(rooms). -/
theorem find?_rooms_map (l : List RoomRow) (rid : Nat) (f : RoomRow → RoomRow)
    (hf : ∀ r, (f r).id = r.id) :
    (l.map f).find? (fun r => decide (r.id = rid))
      = (l.find? (fun r => decide (r.id = rid))).map f := by
  have hp : ((fun r : RoomRow => decide (r.id = rid)) ∘ f)
      = fun r : RoomRow => decide (r.id = rid) := by
    funext r
    simp [Function.comp, hf]
  rw [List.find?_map, hp]

/-- find?-by-id through a map by an id-preserving row transformation
(workers). -/
theorem find?_workers_map (l : List WorkerRow) (w : Nat) (g : WorkerRow → WorkerRow)
    (hg : ∀ wk, (g wk).id = wk.id) :
    (l.map g).find? (fun wk => decide (wk.id = w))
      = (l.find? (fun wk => decide (wk.id = w))).map g := by
  have hp : ((fun wk : WorkerRow => decide (wk.id = w)) ∘ g)
      = fun wk : WorkerRow => decide (wk.id = w) := by
    funext wk
    simp [Function.comp, hg]
  rw [List.find?_map, hp]

/-- claimUpdateRoom preserves row ids. -/
theorem claimUpdateRoom_id (now : Int) (w rid : Nat) (r : RoomRow) :
    (claimUpdateRoom now w rid r).id = r.id := by
  unfold claimUpdateRoom claimSet
  split <;> rfl

/-- claimUpdateWorker preserves row ids. -/
theorem claimUpdateWorker_id (now : Int) (w rid : Nat) (wk : WorkerRow) :
    (claimUpdateWorker now w rid wk).id = wk.id := by
  unfold claimUpdateWorker
  split <;> rfl

/-- releaseUpdateRoom preserves row ids. -/
theorem releaseUpdateRoom_id (w rid : Nat) (r : RoomRow) :
    (releaseUpdateRoom w rid r).id = r.id := by
  unfold releaseUpdateRoom
  split <;> rfl

/-- releaseUpdateWorker preserves row ids. -/
theorem releaseUpdateWorker_id (w rid : Nat) (wk : WorkerRow) :
    (releaseUpdateWorker w rid wk).id = wk.id := by
  unfold releaseUpdateWorker
  split <;> rfl

/-- The staleness test unfolded to a proposition. -/
theorem heartbeatStale_eq_true {now : Int} {r : RoomRow} :
    heartbeatStale now r = true ↔
      ∃ hb, r.media_worker_heartbeat = some hb ∧ hb < now - 45 := by
  unfold heartbeatStale
  cases h : r.media_worker_heartbeat with
  | none => simp
  | some hb => simp

/-- The full claim predicate unfolded to a proposition. -/
theorem claimWhere_eq_true {now : Int} {rid : Nat} {r : RoomRow} :
    claimWhere now rid r = true ↔
      r.id = rid ∧
        (r.media_worker_id = none ∨
          ∃ hb, r.media_worker_heartbeat = some hb ∧ hb < now - 45) ∧
        (r.status = RoomStatus.pending ∨ r.status = RoomStatus.active) := by
  unfold claimWhere
  rw [Bool.and_eq_true, Bool.and_eq_true, Bool.or_eq_true, Bool.or_eq_true,
    heartbeatStale_eq_true]
  simp [and_assoc]

/-- All rooms with the given id already being in processing status makes
claim_room_for_worker fail and leave the store untouched. -/
theorem claim_fails_of_processing {rid : Nat} {db : DB}
    (h : ∀ r ∈ db.rooms, r.id = rid → r.status = RoomStatus.processing)
    (now : Int) (w : Nat) :
    claim_room_for_worker now w rid db = (false, db) := by
  have hzero : db.rooms.countP (claimWhere now rid) = 0 := by
    rw [List.countP_eq_zero]
    intro r hr hcl
    rcases claimWhere_eq_true.mp hcl with ⟨hid, _, hst⟩
    have := h r hr hid
    rcases hst with hst | hst <;> rw [this] at hst <;> exact RoomStatus.noConfusion hst
  have hmap : db.rooms.map (claimUpdateRoom now w rid) = db.rooms := by
    apply map_eq_self_of_mem
    intro r hr
    have hfalse : claimWhere now rid r = false :=
      Bool.eq_false_iff.mpr (List.countP_eq_zero.mp hzero r hr)
    unfold claimUpdateRoom
    simp [hfalse]
  unfold claim_room_for_worker
  rw [hzero, hmap]
  simp

/-- Run a list of claim_room_for_worker calls, all against the same room,
in sequence; each entry is the calling worker and the call time.  Returns
the list of boolean results and the final store. -/
def runClaims (rid : Nat) (calls : List (Nat × Int)) (db : DB) : List Bool × DB :=
  match calls with
  | [] => ([], db)
  | (w', t') :: rest =>
      let step := claim_room_for_worker t' w' rid db
      let further := runClaims rid rest step.2
      (step.1 :: further.1, further.2)

/-- Once every row with the target id is in processing status, every
further claim on that room fails. -/
theorem runClaims_all_false {rid : Nat} {db : DB}
    (h : ∀ r ∈ db.rooms, r.id = rid → r.status = RoomStatus.processing)
    (calls : List (Nat × Int)) :
    runClaims rid calls db = (List.replicate calls.length false, db) := by
  induction calls with
  | nil => rfl
  | cons c rest ih =>
      obtain ⟨w', t'⟩ := c
      unfold runClaims
      rw [claim_fails_of_processing h t' w']
      simp [ih, List.replicate_succ]

/-- Projection of claim_room_for_worker: the returned boolean. -/
theorem claim_room_fst (now : Int) (w rid : Nat) (db : DB) :
    (claim_room_for_worker now w rid db).1
      = decide (0 < db.rooms.countP (claimWhere now rid)) := rfl

/-- Projection of claim_room_for_worker: the rooms after the call. -/
theorem claim_room_snd_rooms (now : Int) (w rid : Nat) (db : DB) :
    (claim_room_for_worker now w rid db).2.rooms
      = db.rooms.map (claimUpdateRoom now w rid) := rfl

/-- Projection of claim_room_for_worker: the workers after the call. -/
theorem claim_room_snd_workers (now : Int) (w rid : Nat) (db : DB) :
    (claim_room_for_worker now w rid db).2.media_workers
      = if 0 < db.rooms.countP (claimWhere now rid) then
          db.media_workers.map (claimUpdateWorker now w rid)
        else db.media_workers := rfl

/-- The call succeeds exactly when the looked-up room satisfies the claim
predicate (room ids assumed unique, as for a primary key). -/
theorem claim_succ_iff {db : DB} {w rid : Nat} {now : Int} {room : RoomRow}
    (hroom : lookupRoom db rid = some room)
    (hnodupR : (db.rooms.map RoomRow.id).Nodup) :
    (claim_room_for_worker now w rid db).1 = true ↔ claimWhere now rid room = true := by
  have hroom' : db.rooms.find? (fun r => decide (r.id = rid)) = some room := hroom
  have hmem : room ∈ db.rooms := List.mem_of_find?_eq_some hroom'
  have hid : room.id = rid := by
    have h := List.find?_some hroom'
    simpa using h
  rw [claim_room_fst, decide_eq_true_eq, List.countP_pos_iff]
  constructor
  · rintro ⟨r, hr, hcl⟩
    have hrid : r.id = rid := (claimWhere_eq_true.mp hcl).1
    have heq : r = room :=
      nodup_map_mem_inj hnodupR r hr room hmem (by rw [hrid, hid])
    rwa [heq] at hcl
  · intro h
    exact ⟨room, hmem, h⟩

/-- Claim C1: claim_room_for_worker(W, R) returns true iff R's status is
pending or active and R's owner column is null or its heartbeat is older
than now − 45 s; on success it sets R's owner columns to W with claim
time and heartbeat now and status processing, and sets W's
current_room_id to R and last_heartbeat to now; and after a success every
further claim_room call on R fails (in particular, of any sequence of
claims on a claimable R the first succeeds and all others return false
for the next 45 s — here unconditionally, because the status has moved to
processing), so exactly one of a set of serialized concurrent claims
returns true. -/
theorem claim_room_for_worker_spec
    (db : DB) (w rid : Nat) (now : Int) (room : RoomRow) (wk : WorkerRow)
    (hroom : lookupRoom db rid = some room)
    (hwk : lookupWorker db w = some wk)
    (hnodupR : (db.rooms.map RoomRow.id).Nodup) :
    ((claim_room_for_worker now w rid db).1 = true ↔
      ((room.status = RoomStatus.pending ∨ room.status = RoomStatus.active) ∧
        (room.media_worker_id = none ∨
          ∃ hb, room.media_worker_heartbeat = some hb ∧ hb < now - 45))) ∧
    ((claim_room_for_worker now w rid db).1 = true →
      lookupRoom (claim_room_for_worker now w rid db).2 rid =
        some { room with media_worker_id := some w, worker_claimed_at := some now,
                         media_worker_heartbeat := some now,
                         status := RoomStatus.processing } ∧
      lookupWorker (claim_room_for_worker now w rid db).2 w =
        some { wk with current_room_id := some rid, last_heartbeat := now }) ∧
    ((claim_room_for_worker now w rid db).1 = true →
      ∀ calls : List (Nat × Int),
        runClaims rid calls (claim_room_for_worker now w rid db).2 =
          (List.replicate calls.length false, (claim_room_for_worker now w rid db).2)) := by
  have hroom' : db.rooms.find? (fun r => decide (r.id = rid)) = some room := hroom
  have hwk' : db.media_workers.find? (fun x => decide (x.id = w)) = some wk := hwk
  have hmem : room ∈ db.rooms := List.mem_of_find?_eq_some hroom'
  have hid : room.id = rid := by
    have h := List.find?_some hroom'
    simpa using h
  have hidW : wk.id = w := by
    have h := List.find?_some hwk'
    simpa using h
  have hiff := @claim_succ_iff db w rid now room hroom hnodupR
  refine ⟨?_, ?_, ?_⟩
  · rw [hiff, claimWhere_eq_true]
    constructor
    · rintro ⟨_, hown, hst⟩
      exact ⟨hst, hown⟩
    · rintro ⟨hst, hown⟩
      exact ⟨hid, hown, hst⟩
  · intro hsucc
    have hclw : claimWhere now rid room = true := hiff.mp hsucc
    have hpos : 0 < db.rooms.countP (claimWhere now rid) := by
      have h' := hsucc
      rw [claim_room_fst, decide_eq_true_eq] at h'
      exact h'
    constructor
    · unfold lookupRoom
      rw [claim_room_snd_rooms,
        find?_rooms_map _ _ _ (claimUpdateRoom_id now w rid)]
      have : db.rooms.find? (fun r => decide (r.id = rid)) = some room := hroom
      rw [this]
      simp [claimUpdateRoom, hclw, claimSet]
    · unfold lookupWorker
      rw [claim_room_snd_workers, if_pos hpos,
        find?_workers_map _ _ _ (claimUpdateWorker_id now w rid)]
      have : db.media_workers.find? (fun x => decide (x.id = w)) = some wk := hwk
      rw [this]
      simp [claimUpdateWorker, hidW]
  · intro hsucc calls
    apply runClaims_all_false
    intro r' hr' hid'
    rw [claim_room_snd_rooms] at hr'
    obtain ⟨r, hr, rfl⟩ := List.mem_map.mp hr'
    have hclw : claimWhere now rid room = true := hiff.mp hsucc
    have hrid : r.id = rid := by
      rw [← claimUpdateRoom_id now w rid r]
      exact hid'
    have heq : r = room :=
      nodup_map_mem_inj hnodupR r hr room hmem (by rw [hrid, hid])
    subst heq
    simp [claimUpdateRoom, hclw, claimSet]

/-- A one-room one-worker store with a pending unowned room, used to
witness the claim_room specification. -/
def dbC1 : DB :=
  { rooms := [⟨5, none, none, none, RoomStatus.pending, none, none, true, 0⟩],
    media_workers := [⟨3, WorkerStatus.active, none, 0⟩],
    participants := [], post_call_jobs := [], transcriptions := [] }

/-- The room row of dbC1. -/
def roomC1 : RoomRow := ⟨5, none, none, none, RoomStatus.pending, none, none, true, 0⟩

/-- The worker row of dbC1. -/
def wkC1 : WorkerRow := ⟨3, WorkerStatus.active, none, 0⟩

/-- Witness for claim C1 at a concrete store: worker 3 claims the
pending room 5 at time 10 and a later claim by worker 4 at time 20
fails. -/
theorem claim_room_for_worker_spec_witness :
    lookupRoom dbC1 5 = some roomC1 ∧
    (claim_room_for_worker 10 3 5 dbC1).1 = true ∧
    runClaims 5 [(4, 20)] (claim_room_for_worker 10 3 5 dbC1).2 =
      (List.replicate 1 false, (claim_room_for_worker 10 3 5 dbC1).2) := by
  have h := claim_room_for_worker_spec dbC1 3 5 10 roomC1 wkC1
    (by decide) (by decide) (by decide)
  have hsucc : (claim_room_for_worker 10 3 5 dbC1).1 = true :=
    h.1.mpr ⟨Or.inl rfl, Or.inl rfl⟩
  exact ⟨by decide, hsucc, h.2.2 hsucc [(4, 20)]⟩

/-- Projection of release_room_from_worker: the rooms. -/
theorem release_rooms (w rid : Nat) (db : DB) :
    (releaseRoomFromWorker w rid db).rooms
      = db.rooms.map (releaseUpdateRoom w rid) := rfl

/-- Projection of release_room_from_worker: the workers. -/
theorem release_workers (w rid : Nat) (db : DB) :
    (releaseRoomFromWorker w rid db).media_workers
      = db.media_workers.map (releaseUpdateWorker w rid) := rfl

/-- A one-room one-worker store with a pending unowned room, used for the
claim/release round-trip. -/
def dbC5 : DB :=
  { rooms := [⟨8, none, none, none, RoomStatus.pending, none, none, true, 0⟩],
    media_workers := [⟨2, WorkerStatus.active, none, 0⟩],
    participants := [], post_call_jobs := [], transcriptions := [] }

/-- The room row of dbC5. -/
def roomC5 : RoomRow := ⟨8, none, none, none, RoomStatus.pending, none, none, true, 0⟩

/-- The worker row of dbC5. -/
def wkC5 : WorkerRow := ⟨2, WorkerStatus.active, none, 0⟩

/-- Counterexample to claim C5 as stated: after worker 2 claims pending
room 8 and releases it, the room row is NOT back in its pre-claim state —
its status is processing, not pending — and the room is NOT claimable
again: a fresh claim by worker 4 returns false. -/
theorem claim_release_counterexample :
    (claim_room_for_worker 10 2 8 dbC5).1 = true ∧
    (lookupRoom dbC5 8).map RoomRow.status = some RoomStatus.pending ∧
    (lookupRoom (releaseRoomFromWorker 2 8 (claim_room_for_worker 10 2 8 dbC5).2) 8).map
        RoomRow.status = some RoomStatus.processing ∧
    lookupRoom (releaseRoomFromWorker 2 8 (claim_room_for_worker 10 2 8 dbC5).2) 8
      ≠ lookupRoom dbC5 8 ∧
    (claim_room_for_worker 11 4 8 (releaseRoomFromWorker 2 8
        (claim_room_for_worker 10 2 8 dbC5).2)).1 = false := by
  decide

/-- Claim C5 (amended): after a successful claim_room_for_worker(W, R), a
release_room_from_worker(W, R) clears the room's owner columns (they are
null again) but leaves the status processing as set by the claim (the
room is not claimable again), clears the worker's current_room_id, and a
second release_room_from_worker(W, R) changes nothing. -/
theorem release_room_after_claim
    (db : DB) (w rid : Nat) (now : Int) (room : RoomRow) (wk : WorkerRow)
    (hroom : lookupRoom db rid = some room)
    (hwk : lookupWorker db w = some wk)
    (hnodupR : (db.rooms.map RoomRow.id).Nodup)
    (hnodupW : (db.media_workers.map WorkerRow.id).Nodup)
    (hsucc : (claim_room_for_worker now w rid db).1 = true) :
    lookupRoom (releaseRoomFromWorker w rid (claim_room_for_worker now w rid db).2) rid =
      some { room with media_worker_id := none, worker_claimed_at := none,
                       media_worker_heartbeat := none,
                       status := RoomStatus.processing } ∧
    lookupWorker (releaseRoomFromWorker w rid (claim_room_for_worker now w rid db).2) w =
      some { wk with current_room_id := none, last_heartbeat := now } ∧
    releaseRoomFromWorker w rid
        (releaseRoomFromWorker w rid (claim_room_for_worker now w rid db).2)
      = releaseRoomFromWorker w rid (claim_room_for_worker now w rid db).2 := by
  have hroom' : db.rooms.find? (fun r => decide (r.id = rid)) = some room := hroom
  have hwk' : db.media_workers.find? (fun x => decide (x.id = w)) = some wk := hwk
  have hmem : room ∈ db.rooms := List.mem_of_find?_eq_some hroom'
  have hid : room.id = rid := by
    have h := List.find?_some hroom'
    simpa using h
  have hmemW : wk ∈ db.media_workers := List.mem_of_find?_eq_some hwk'
  have hidW : wk.id = w := by
    have h := List.find?_some hwk'
    simpa using h
  have hclw : claimWhere now rid room = true :=
    (@claim_succ_iff db w rid now room hroom hnodupR).mp hsucc
  have hpos : 0 < db.rooms.countP (claimWhere now rid) := by
    have h' := hsucc
    rw [claim_room_fst, decide_eq_true_eq] at h'
    exact h'
  refine ⟨?_, ?_, ?_⟩
  · unfold lookupRoom
    rw [release_rooms, claim_room_snd_rooms,
      find?_rooms_map _ _ _ (releaseUpdateRoom_id w rid),
      find?_rooms_map _ _ _ (claimUpdateRoom_id now w rid), hroom']
    simp [claimUpdateRoom, hclw, claimSet, releaseUpdateRoom, hid]
  · unfold lookupWorker
    rw [release_workers, claim_room_snd_workers, if_pos hpos,
      find?_workers_map _ _ _ (releaseUpdateWorker_id w rid),
      find?_workers_map _ _ _ (claimUpdateWorker_id now w rid), hwk']
    simp [claimUpdateWorker, hidW, releaseUpdateWorker]
  · set db2 := releaseRoomFromWorker w rid (claim_room_for_worker now w rid db).2 with hdb2
    have hmaprooms : db2.rooms.map (releaseUpdateRoom w rid) = db2.rooms := by
      apply map_eq_self_of_mem
      intro r' hr'
      rw [hdb2, release_rooms, claim_room_snd_rooms] at hr'
      obtain ⟨r1, hr1, rfl⟩ := List.mem_map.mp hr'
      obtain ⟨r, hr, rfl⟩ := List.mem_map.mp hr1
      by_cases hcase : r.id = rid
      · have heq : r = room :=
          nodup_map_mem_inj hnodupR r hr room hmem (by rw [hcase, hid])
        subst heq
        simp [claimUpdateRoom, hclw, claimSet, releaseUpdateRoom, hcase]
      · have hclf : claimWhere now rid r = false := by
          apply Bool.eq_false_iff.mpr
          intro hcl
          exact hcase (claimWhere_eq_true.mp hcl).1
        simp [claimUpdateRoom, hclf, releaseUpdateRoom, hcase]
    have hmapworkers : db2.media_workers.map (releaseUpdateWorker w rid)
        = db2.media_workers := by
      apply map_eq_self_of_mem
      intro u' hu'
      rw [hdb2, release_workers, claim_room_snd_workers, if_pos hpos] at hu'
      obtain ⟨u1, hu1, rfl⟩ := List.mem_map.mp hu'
      obtain ⟨u, hu, rfl⟩ := List.mem_map.mp hu1
      by_cases hcase : u.id = w
      · have heq : u = wk :=
          nodup_map_mem_inj hnodupW u hu wk hmemW (by rw [hcase, hidW])
        subst heq
        simp [claimUpdateWorker, hcase, releaseUpdateWorker]
      · simp [claimUpdateWorker, hcase, releaseUpdateWorker]
    show releaseRoomFromWorker w rid db2 = db2
    unfold releaseRoomFromWorker
    rw [hmaprooms, hmapworkers]

/-- Witness for the amended claim C5: after worker 2's successful claim
of room 8 at time 10, releasing returns the row with owner columns null
and status processing, and a second release is the identity. -/
theorem release_room_after_claim_witness :
    (claim_room_for_worker 10 2 8 dbC5).1 = true ∧
    lookupRoom (releaseRoomFromWorker 2 8 (claim_room_for_worker 10 2 8 dbC5).2) 8 =
      some ⟨8, none, none, none, RoomStatus.processing, none, none, true, 0⟩ ∧
    releaseRoomFromWorker 2 8
        (releaseRoomFromWorker 2 8 (claim_room_for_worker 10 2 8 dbC5).2)
      = releaseRoomFromWorker 2 8 (claim_room_for_worker 10 2 8 dbC5).2 := by
  have h := release_room_after_claim dbC5 2 8 10 roomC5 wkC5
    (by decide) (by decide) (by decide) (by decide) (by decide)
  exact ⟨by decide, h.1, h.2.2⟩

/-- Membership in staleWorkerIds characterizes staleness of a listed
worker (worker ids assumed unique). -/
theorem mem_staleWorkerIds_iff {db : DB} {now threshold : Int}
    (hnodupW : (db.media_workers.map WorkerRow.id).Nodup) :
    ∀ u ∈ db.media_workers,
      decide (u.id ∈ staleWorkerIds now threshold db) = workerStale now threshold u := by
  intro u hu
  by_cases hst : workerStale now threshold u = true
  · rw [hst]
    apply decide_eq_true
    exact List.mem_map_of_mem _ (List.mem_filter.mpr ⟨hu, hst⟩)
  · rw [Bool.eq_false_iff.mpr hst]
    apply decide_eq_false
    intro hin
    obtain ⟨v, hv, hvid⟩ := List.mem_map.mp hin
    obtain ⟨hvmem, hvstale⟩ := List.mem_filter.mp hv
    have heq : v = u := nodup_map_mem_inj hnodupW v hvmem u hu hvid
    rw [heq] at hvstale
    exact hst hvstale

/-- Claim C8 (amended): cleanup_stale_workers(45) clears the owner
columns on every room owned by a stale worker (an active worker whose
heartbeat is older than now − 45 s), preserving the room's status, sets
each stale worker's row to status stopped with current_room_id null, and
returns the number of workers reaped.  The reaped rooms are NOT thereby
made claimable: their status stays processing (set by the claim), which
claim_room_for_worker rejects. -/
theorem cleanup_stale_workers_spec (db : DB) (now : Int)
    (hnodupW : (db.media_workers.map WorkerRow.id).Nodup) :
    (∀ wk ∈ db.media_workers, wk.status = WorkerStatus.active →
      wk.last_heartbeat < now - 45 →
      (∃ wk' ∈ (cleanup_stale_workers now 45 db).2.media_workers,
        wk'.id = wk.id ∧ wk'.status = WorkerStatus.stopped ∧
        wk'.current_room_id = none) ∧
      (∀ r ∈ db.rooms, r.media_worker_id = some wk.id →
        ∃ r' ∈ (cleanup_stale_workers now 45 db).2.rooms,
          r'.id = r.id ∧ r'.media_worker_id = none ∧
          r'.worker_claimed_at = none ∧ r'.media_worker_heartbeat = none ∧
          r'.status = r.status)) ∧
    (cleanup_stale_workers now 45 db).1
      = (db.media_workers.filter (workerStale now 45)).length := by
  constructor
  · intro wk hwk hact hhb
    have hstale : workerStale now 45 wk = true := by
      unfold workerStale
      rw [hact]
      simp [hhb]
    have hidin : wk.id ∈ staleWorkerIds now 45 db :=
      List.mem_map_of_mem _ (List.mem_filter.mpr ⟨hwk, hstale⟩)
    have hne : ¬ ((staleWorkerIds now 45 db).isEmpty = true) := by
      simp only [List.isEmpty_iff]
      exact List.ne_nil_of_mem hidin
    constructor
    · refine ⟨reapUpdateWorker (staleWorkerIds now 45 db) wk, ?_, ?_⟩
      · show _ ∈ (cleanup_stale_workers now 45 db).2.media_workers
        unfold cleanup_stale_workers
        rw [if_neg hne]
        exact List.mem_map_of_mem _ hwk
      · unfold reapUpdateWorker
        rw [if_pos (decide_eq_true hidin)]
        exact ⟨rfl, rfl, rfl⟩
    · intro r hr hown
      have howned : ownedByStale (staleTextIds now 45 db) r = true := by
        unfold ownedByStale
        rw [hown]
        apply decide_eq_true
        exact List.mem_map_of_mem _
          (List.mem_filter.mpr ⟨hwk, decide_eq_true hidin⟩)
      refine ⟨reapUpdateRoom (staleTextIds now 45 db) r, ?_, ?_⟩
      · show _ ∈ (cleanup_stale_workers now 45 db).2.rooms
        unfold cleanup_stale_workers
        rw [if_neg hne]
        exact List.mem_map_of_mem _ hr
      · unfold reapUpdateRoom
        rw [if_pos howned]
        exact ⟨rfl, rfl, rfl, rfl, rfl⟩
  · by_cases hemp : (staleWorkerIds now 45 db).isEmpty = true
    · have hnil : staleWorkerIds now 45 db = [] := List.isEmpty_iff.mp hemp
      have hfilnil : db.media_workers.filter (workerStale now 45) = [] := by
        unfold staleWorkerIds at hnil
        exact List.map_eq_nil_iff.mp hnil
      unfold cleanup_stale_workers
      rw [if_pos hemp, hfilnil]
      rfl
    · unfold cleanup_stale_workers
      rw [if_neg hemp]
      show db.media_workers.countP _ = _
      have hcongr : ∀ x ∈ db.media_workers,
          (decide (x.id ∈ staleWorkerIds now 45 db) = true
            ↔ workerStale now 45 x = true) := by
        intro x hx
        rw [mem_staleWorkerIds_iff hnodupW x hx]
      rw [List.countP_congr hcongr, List.countP_eq_length_filter]

/-- A two-worker store where worker 9 (stale at time 100) owns room 21
(in processing status, as the claim left it) and worker 11 is fresh. -/
def dbC8 : DB :=
  { rooms := [⟨21, some 9, some 0, some 0, RoomStatus.processing, none, none, true, 0⟩],
    media_workers := [⟨9, WorkerStatus.active, some 21, 0⟩,
                      ⟨11, WorkerStatus.active, none, 100⟩],
    participants := [], post_call_jobs := [], transcriptions := [] }

/-- Counterexample to claim C8 as stated: reaping stale worker 9 at time
100 clears room 21's owner columns, but the room's status remains
processing, and claim_room_for_worker requires status pending or active —
so the fresh worker 11's claim on the reaped room still returns false:
clearing the owner columns does not make the room claimable. -/
theorem cleanup_stale_workers_not_claimable_counterexample :
    (lookupRoom (cleanup_stale_workers 100 45 dbC8).2 21).map
        RoomRow.media_worker_id = some none ∧
    (lookupRoom (cleanup_stale_workers 100 45 dbC8).2 21).map
        RoomRow.media_worker_heartbeat = some none ∧
    (lookupRoom (cleanup_stale_workers 100 45 dbC8).2 21).map
        RoomRow.status = some RoomStatus.processing ∧
    (claim_room_for_worker 101 11 21 (cleanup_stale_workers 100 45 dbC8).2).1
      = false := by
  decide

/-- Witness for claim C8: at time 100 the reaper counts exactly the stale
filter and stops worker 9, clearing its current room. -/
theorem cleanup_stale_workers_spec_witness :
    (cleanup_stale_workers 100 45 dbC8).1
      = (dbC8.media_workers.filter (workerStale 100 45)).length ∧
    (∃ wk' ∈ (cleanup_stale_workers 100 45 dbC8).2.media_workers,
      wk'.id = 9 ∧ wk'.status = WorkerStatus.stopped ∧
      wk'.current_room_id = none) ∧
    (∃ r' ∈ (cleanup_stale_workers 100 45 dbC8).2.rooms,
      r'.id = 21 ∧ r'.media_worker_id = none ∧ r'.worker_claimed_at = none ∧
      r'.media_worker_heartbeat = none ∧ r'.status = RoomStatus.processing) := by
  have h := cleanup_stale_workers_spec dbC8 100 (by decide)
  have h9 := h.1 ⟨9, WorkerStatus.active, some 21, 0⟩ (by decide) rfl (by decide)
  refine ⟨h.2, h9.1, ?_⟩
  have hr := h9.2 ⟨21, some 9, some 0, some 0, RoomStatus.processing, none, none, true, 0⟩
    (by decide) rfl
  exact hr

/-! ## Timebase (dist/lib/timebase.js)

`Timebase.initialize` issues two store operations separated by awaits: a
read of rooms.timebase_started_at, and — only when the read returned null
— an update writing a freshly generated origin.  The update carries no
condition beyond the row id (it is not set-if-null), and the writer keeps
its locally generated value without re-reading the row.  The two steps
are modelled separately so that interleavings of concurrent initialize
calls can be expressed; a full call is the two steps run back to back. -/

/-- The read step of Timebase.initialize: select timebase_started_at of
the room; none when the room row is missing (the code throws there). -/
def timebaseRead (rid : Nat) (db : DB) : Option (Option Int) :=
  (lookupRoom db rid).map RoomRow.timebase_started_at

/-- The room UPDATE of Timebase.initialize applied to one row: set
timebase_started_at unconditionally wherever the id matches. -/
def timebaseWriteRow (now : Int) (rid : Nat) (r : RoomRow) : RoomRow :=
  if decide (r.id = rid) then { r with timebase_started_at := some now } else r

/-- The completion step of Timebase.initialize, given the earlier read
result: adopt a present origin unchanged, otherwise write `now`
unconditionally and return it. -/
def timebaseFinish (now : Int) (rid : Nat) (readResult : Option Int) (db : DB) :
    DB × Int :=
  match readResult with
  | some t => (db, t)
  | none => ({ db with rooms := db.rooms.map (timebaseWriteRow now rid) }, now)

/-- A full, uninterleaved Timebase.initialize call: read then finish. -/
def timebaseInitialize (now : Int) (rid : Nat) (db : DB) : Option (DB × Int) :=
  (timebaseRead rid db).map fun res => timebaseFinish now rid res db

/-- A one-room store with no timebase origin. -/
def dbC2 : DB :=
  { rooms := [⟨7, none, none, none, RoomStatus.pending, none, none, true, 0⟩],
    media_workers := [], participants := [], post_call_jobs := [],
    transcriptions := [] }

/-- Counterexample to claim C2 as stated: two interleaved initialize
calls on room 7 both read null; the first then writes origin 100, the
second overwrites it with 200 (the update is not set-if-null), the stored
value thus changes after first being set, and the loser of the write race
returns 100 while the row stores 200 — so not all initialize calls return
the value stored in the row. -/
theorem timebase_initialize_race_counterexample :
    timebaseRead 7 dbC2 = some none ∧
    (timebaseFinish 100 7 none dbC2).2 = 100 ∧
    (lookupRoom (timebaseFinish 100 7 none dbC2).1 7).map
        RoomRow.timebase_started_at = some (some 100) ∧
    (timebaseFinish 200 7 none (timebaseFinish 100 7 none dbC2).1).2 = 200 ∧
    (lookupRoom (timebaseFinish 200 7 none (timebaseFinish 100 7 none dbC2).1).1 7).map
        RoomRow.timebase_started_at = some (some 200) ∧
    (100 : Int) ≠ 200 := by
  decide

/-- Claim C2 (amended): without interleaving, the timebase is set once
and adopted thereafter — an initialize call that completes on a store
where a previous call completed returns exactly the origin stored by that
previous call and leaves the store unchanged; only interleaved calls that
both read null can overwrite each other. -/
theorem timebase_initialize_sequential_idempotent
    (db : DB) (rid : Nat) (now1 now2 : Int) (room : RoomRow)
    (hroom : lookupRoom db rid = some room) :
    ∃ db1 t1, timebaseInitialize now1 rid db = some (db1, t1) ∧
      timebaseInitialize now2 rid db1 = some (db1, t1) ∧
      (lookupRoom db1 rid).map RoomRow.timebase_started_at = some (some t1) := by
  have hroom' : db.rooms.find? (fun r => decide (r.id = rid)) = some room := hroom
  have hid : room.id = rid := by
    have h := List.find?_some hroom'
    simpa using h
  cases horigin : room.timebase_started_at with
  | some t =>
      refine ⟨db, t, ?_, ?_, ?_⟩
      · unfold timebaseInitialize timebaseRead
        rw [hroom]
        simp [horigin, timebaseFinish]
      · unfold timebaseInitialize timebaseRead
        rw [hroom]
        simp [horigin, timebaseFinish]
      · rw [hroom]
        simp [horigin]
  | none =>
      have hlook1 : lookupRoom { db with rooms := db.rooms.map (timebaseWriteRow now1 rid) } rid
          = some { room with timebase_started_at := some now1 } := by
        unfold lookupRoom
        show (db.rooms.map (timebaseWriteRow now1 rid)).find? _ = _
        rw [find?_rooms_map _ _ _ (fun r => by
          unfold timebaseWriteRow
          split <;> rfl), hroom']
        simp [timebaseWriteRow, hid]
      refine ⟨{ db with rooms := db.rooms.map (timebaseWriteRow now1 rid) }, now1, ?_, ?_, ?_⟩
      · unfold timebaseInitialize timebaseRead
        rw [hroom]
        simp [horigin, timebaseFinish]
      · unfold timebaseInitialize timebaseRead
        rw [hlook1]
        simp [timebaseFinish]
      · rw [hlook1]
        rfl

/-- Witness for the amended claim C2: on a store whose room 7 has no
origin, a first initialize at time 100 establishes origin 100 and a
second initialize at time 200 returns the same 100 without writing. -/
theorem timebase_initialize_sequential_idempotent_witness :
    lookupRoom dbC2 7
      = some ⟨7, none, none, none, RoomStatus.pending, none, none, true, 0⟩ ∧
    (∃ db1 t1, timebaseInitialize 100 7 dbC2 = some (db1, t1) ∧
      timebaseInitialize 200 7 db1 = some (db1, t1) ∧
      (lookupRoom db1 7).map RoomRow.timebase_started_at = some (some t1)) := by
  exact ⟨by decide,
    timebase_initialize_sequential_idempotent dbC2 7 100 200
      ⟨7, none, none, none, RoomStatus.pending, none, none, true, 0⟩ (by decide)⟩

/-! ## Call-end detector (src/services/call-end-detector.ts)

The class keeps `emptyTimer`, a nullable timer handle.  The handle is set
by startEmptyTimer (only when currently null), cleared by
cancelEmptyTimer, and — crucially — NOT cleared when the timer fires: a
fired timer leaves a stale non-null handle behind.  The handle is
therefore in one of three states. -/

/-- State of the emptyTimer handle: null, armed and pending, or a stale
handle whose callback already ran. -/
inductive TimerHandle
  | null
  | armed
  | fired
  deriving DecidableEq, Repr

/-- In-memory state of a CallEndDetector, with a counter of how often the
registered call-end handler has been invoked. -/
structure DetectorState where
  currentParticipantCount : Nat
  emptyTimer : TimerHandle
  handlerInvocations : Nat
  deriving DecidableEq, Repr

/-- The initial detector state after construction. -/
def initialDetector : DetectorState :=
  { currentParticipantCount := 0, emptyTimer := TimerHandle.null,
    handlerInvocations := 0 }

/-- startEmptyTimer: return early if the handle is non-null (armed or
stale), otherwise arm a fresh timer. -/
def startEmptyTimer (s : DetectorState) : DetectorState :=
  if s.emptyTimer ≠ TimerHandle.null then s
  else { s with emptyTimer := TimerHandle.armed }

/-- cancelEmptyTimer: clearTimeout and null the handle if it is set. -/
def cancelEmptyTimer (s : DetectorState) : DetectorState :=
  { s with emptyTimer := TimerHandle.null }

/-- updateParticipantCount: record the count; on zero start the empty
timer, otherwise cancel it. -/
def updateParticipantCount (count : Nat) (s : DetectorState) : DetectorState :=
  let s := { s with currentParticipantCount := count }
  if count = 0 then startEmptyTimer s else cancelEmptyTimer s

/-- The armed timer fires: the callback invokes the call-end handler; the
handle is left set (stale).  Only an armed timer can fire. -/
def timerFire (s : DetectorState) : DetectorState :=
  if s.emptyTimer = TimerHandle.armed then
    { s with emptyTimer := TimerHandle.fired,
             handlerInvocations := s.handlerInvocations + 1 }
  else s

/-- forceCallEnd: cancel the timer and invoke the handler immediately,
unconditionally. -/
def forceCallEnd (s : DetectorState) : DetectorState :=
  { cancelEmptyTimer s with handlerInvocations := s.handlerInvocations + 1 }

/-- Events a detector instance can experience. -/
inductive DetectorEvent
  | update (count : Nat)
  | fire
  | force
  deriving DecidableEq, Repr

/-- One step of the detector. -/
def detectorStep (s : DetectorState) : DetectorEvent → DetectorState
  | DetectorEvent.update n => updateParticipantCount n s
  | DetectorEvent.fire => timerFire s
  | DetectorEvent.force => forceCallEnd s

/-- Run a sequence of detector events from a state. -/
def runDetector (s : DetectorState) (evs : List DetectorEvent) : DetectorState :=
  evs.foldl detectorStep s

/-- Counterexample to claim C7 as stated: two forceCallEnd calls on a
fresh detector invoke the registered handler twice — the detector has no
latch enforcing at-most-once over its lifetime. -/
theorem call_end_detector_double_fire_counterexample :
    (runDetector initialDetector [DetectorEvent.force, DetectorEvent.force]).handlerInvocations = 2 ∧
    (runDetector initialDetector
      [DetectorEvent.update 0, DetectorEvent.fire, DetectorEvent.update 1,
       DetectorEvent.update 0, DetectorEvent.fire]).handlerInvocations = 2 := by
  decide

/-- Internal invariant for the amended claim: without force and with only
zero-count updates, a fired handler is witnessed by a stale handle that
startEmptyTimer will never replace. -/
def DetectorInv (s : DetectorState) : Prop :=
  s.handlerInvocations ≤ 1 ∧
    (s.handlerInvocations = 1 → s.emptyTimer = TimerHandle.fired)

/-- Claim C7 (amended): each firing of an armed timer and each
forceCallEnd invokes the handler once more; at-most-once over the
instance's lifetime holds only on event sequences containing no
forceCallEnd and no positive-count update — there the stale handle left
by a fire blocks re-arming, so the handler runs at most once.  A force or
a cancel-and-re-arm cycle after a fire invokes it again. -/
theorem call_end_detector_single_fire
    (evs : List DetectorEvent)
    (hforce : DetectorEvent.force ∉ evs)
    (hzero : ∀ n, DetectorEvent.update n ∈ evs → n = 0) :
    (runDetector initialDetector evs).handlerInvocations ≤ 1 := by
  suffices h : ∀ s : DetectorState, DetectorInv s →
      DetectorInv (runDetector s evs) by
    exact (h initialDetector ⟨Nat.zero_le 1, fun h1 => absurd h1 (by decide)⟩).1
  induction evs with
  | nil => intro s hs; exact hs
  | cons e rest ih =>
      intro s hs
      have hforce' : DetectorEvent.force ∉ rest := fun hmem =>
        hforce (List.mem_cons_of_mem _ hmem)
      have hzero' : ∀ n, DetectorEvent.update n ∈ rest → n = 0 := fun n hmem =>
        hzero n (List.mem_cons_of_mem _ hmem)
      have hstep : DetectorInv (detectorStep s e) := by
        cases e with
        | update n =>
            have hn : n = 0 := hzero n (List.mem_cons_self _ _)
            subst hn
            unfold detectorStep updateParticipantCount startEmptyTimer
            simp only [if_pos rfl]
            rcases hs with ⟨hle, hfired⟩
            by_cases hnull : s.emptyTimer ≠ TimerHandle.null
            · rw [if_pos hnull]
              exact ⟨hle, hfired⟩
            · rw [if_neg hnull]
              push_neg at hnull
              refine ⟨hle, fun h1 => ?_⟩
              have := hfired h1
              rw [this] at hnull
              exact absurd hnull (by decide)
        | fire =>
            unfold detectorStep timerFire
            rcases hs with ⟨hle, hfired⟩
            by_cases harmed : s.emptyTimer = TimerHandle.armed
            · rw [if_pos harmed]
              have hzero_inv : s.handlerInvocations = 0 := by
                rcases Nat.lt_or_ge s.handlerInvocations 1 with h | h
                · exact Nat.lt_one_iff.mp h
                · have h1 : s.handlerInvocations = 1 := Nat.le_antisymm hle h
                  rw [hfired h1] at harmed
                  exact absurd harmed (by decide)
              exact ⟨by rw [hzero_inv], fun _ => rfl⟩
            · rw [if_neg harmed]
              exact ⟨hle, hfired⟩
        | force =>
            exact absurd (List.mem_cons_self _ _) hforce
      have hres := ih hforce' hzero' (detectorStep s e) hstep
      exact hres

/-- Witness for the amended claim C7: a sequence that arms, fires, and
then sees further zero-count updates invokes the handler exactly once,
hence at most once. -/
theorem call_end_detector_single_fire_witness :
    DetectorEvent.force ∉
      [DetectorEvent.update 0, DetectorEvent.fire, DetectorEvent.update 0] ∧
    (runDetector initialDetector
      [DetectorEvent.update 0, DetectorEvent.fire,
       DetectorEvent.update 0]).handlerInvocations ≤ 1 := by
  refine ⟨by decide, ?_⟩
  apply call_end_detector_single_fire
    [DetectorEvent.update 0, DetectorEvent.fire, DetectorEvent.update 0]
    (by decide)
  intro n hmem
  simp only [List.mem_cons, List.not_mem_nil, or_false] at hmem
  rcases hmem with h | h
  · injection h with h'
  · rcases h with h | h
    · exact DetectorEvent.noConfusion h
    · injection h with h'

/-! ## STT stream client transport close (src/services/speechmatics.ts)

The WebSocket close handler of SpeechmaticsStreamClient.start: it marks
the session row failed only when the close code differs from 1000 AND the
reason string is non-empty (a JS truthiness test), then clears
isActive. -/

/-- Status of a speechmatics_sessions row. -/
inductive SessionStatus
  | active
  | completed
  | failed
  deriving DecidableEq, Repr

/-- A row of the speechmatics_sessions table (columns touched by the
close handler). -/
structure SessionRow where
  id : Nat
  status : SessionStatus
  error_message : Option String
  deriving DecidableEq, Repr

/-- Client-side state relevant to the close handler. -/
structure SttClientState where
  sessionDbId : Option Nat
  isActive : Bool
  deriving DecidableEq, Repr

/-- updateSessionStatus: update the session row by id; a no-op when no
session row was created. -/
def updateSessionStatus (cl : SttClientState) (st : SessionStatus)
    (msg : Option String) (sessions : List SessionRow) : List SessionRow :=
  match cl.sessionDbId with
  | none => sessions
  | some sid =>
      sessions.map fun s =>
        if decide (s.id = sid) then { s with status := st, error_message := msg }
        else s

/-- The error message recorded on an unclean close. -/
def closeMessage (code : Nat) (reason : String) : String :=
  "WebSocket closed with code " ++ toString code ++ ": " ++ reason

/-- The ws close handler: `if (code !== 1000 && reasonString)` mark the
session failed with the composed message; always clear isActive. -/
def onTransportClose (code : Nat) (reason : String) (cl : SttClientState)
    (sessions : List SessionRow) : SttClientState × List SessionRow :=
  let sessions' :=
    if decide (code ≠ 1000) && decide (reason ≠ "") then
      updateSessionStatus cl SessionStatus.failed
        (some (closeMessage code reason)) sessions
    else sessions
  ({ cl with isActive := false }, sessions')

/-- Counterexample to claim C9 as stated: a close with the abnormal code
1006 but an empty reason string — the usual shape of an abnormal
closure — does NOT mark the session failed; the row keeps status active
and no error message, because the handler also requires a non-empty
reason. -/
theorem transport_close_empty_reason_counterexample :
    (onTransportClose 1006 "" ⟨some 1, true⟩ [⟨1, SessionStatus.active, none⟩]).2
      = [⟨1, SessionStatus.active, none⟩] ∧
    ((onTransportClose 1006 "" ⟨some 1, true⟩
        [⟨1, SessionStatus.active, none⟩]).2.find? fun s => decide (s.id = 1)).map
      SessionRow.status = some SessionStatus.active ∧
    SessionStatus.active ≠ SessionStatus.failed := by
  decide

/-- Claim C9 (amended): an unclean transport close (code ≠ 1000) with a
non-empty reason string updates the session row to status failed with the
close reason recorded inside the error message, and deactivates the
client; an unclean close with an empty reason leaves the session row
untouched. -/
theorem transport_close_unclean_failed
    (code : Nat) (reason : String) (cl : SttClientState)
    (sessions : List SessionRow) (sid : Nat) (row : SessionRow)
    (hsid : cl.sessionDbId = some sid)
    (hrow : sessions.find? (fun s => decide (s.id = sid)) = some row)
    (hcode : code ≠ 1000) (hreason : reason ≠ "") :
    ((onTransportClose code reason cl sessions).2.find? fun s => decide (s.id = sid))
      = some { row with status := SessionStatus.failed,
                        error_message := some (closeMessage code reason) } ∧
    (onTransportClose code reason cl sessions).1.isActive = false := by
  have hidrow : row.id = sid := by
    have h := List.find?_some hrow
    simpa using h
  constructor
  · show ((if decide (code ≠ 1000) && decide (reason ≠ "") then _ else _ :
        List SessionRow).find? _) = _
    rw [decide_eq_true hcode, decide_eq_true hreason]
    show ((updateSessionStatus cl SessionStatus.failed
        (some (closeMessage code reason)) sessions).find? _) = _
    unfold updateSessionStatus
    rw [hsid]
    have hp : ((fun s : SessionRow => decide (s.id = sid)) ∘ fun s : SessionRow =>
        if decide (s.id = sid) then
          { s with status := SessionStatus.failed,
                   error_message := some (closeMessage code reason) }
        else s) = fun s : SessionRow => decide (s.id = sid) := by
      funext s
      by_cases h : s.id = sid <;> simp [Function.comp, h]
    rw [List.find?_map, hp, hrow]
    simp [hidrow]
  · rfl

/-- Witness for the amended claim C9: a forced close with code 1006 and
reason "abnormal closure" marks session row 4 failed with the composed
message and deactivates the client. -/
theorem transport_close_unclean_failed_witness :
    (⟨some 4, true⟩ : SttClientState).sessionDbId = some 4 ∧
    ((onTransportClose 1006 "abnormal closure" ⟨some 4, true⟩
        [⟨4, SessionStatus.active, none⟩]).2.find? fun s => decide (s.id = 4))
      = some ⟨4, SessionStatus.failed,
          some (closeMessage 1006 "abnormal closure")⟩ ∧
    (onTransportClose 1006 "abnormal closure" ⟨some 4, true⟩
        [⟨4, SessionStatus.active, none⟩]).1.isActive = false := by
  have h := transport_close_unclean_failed 1006 "abnormal closure"
    ⟨some 4, true⟩ [⟨4, SessionStatus.active, none⟩] 4
    ⟨4, SessionStatus.active, none⟩ rfl (by decide) (by decide) (by decide)
  exact ⟨rfl, h.1, h.2⟩

/-! ## Transcript sink (src/services/transcript-manager.ts)

The TranscriptManager keeps an in-memory batch queue.  `writeTranscript`
filters non-final fragments, drops the oldest entry when the queue is at
the cap, pushes, and flushes at the batch size (otherwise arms the batch
timer).  `flush` clears the timer, takes the whole queue as the batch,
lazily loads the organization id (an await), and inserts (an await); on a
missing organization it restores the batch unconditionally and throws; on
a failed insert it restores the batch only when that stays within the
cap, and throws.  The two awaits are suspension points: the `duringLoad`
and `duringInsert` arguments below are the enqueue parts of
writeTranscript calls that interleave there (their own nested flush
trigger is not modelled; all instantiations in the theorems stay below
the batch size at those points, where the enqueue part is exact). -/

/-- An entry of the transcript batch queue: the written data together
with the wall clock captured at push time. -/
structure QueuedTranscript where
  participantId : Nat
  text : String
  isFinal : Bool
  timestamp : Int
  deriving DecidableEq, Repr

/-- A row prepared for insertion into the transcriptions table
(restricted to the fields the claims mention; relative_timestamp is the
difference from the timebase origin, kept in integer time units). -/
structure TranscriptionRecord where
  organization_id : Nat
  participant_id : Nat
  transcript_text : String
  is_final : Bool
  relative_timestamp : Int
  timestamp : Int
  deriving DecidableEq, Repr

/-- In-memory state of a TranscriptManager (the timebase it holds is
reduced to the origin t0). -/
structure TMState where
  batchQueue : List QueuedTranscript
  organizationId : Option Nat
  droppedTranscriptCount : Nat
  batchTimer : Bool
  t0 : Int
  deriving DecidableEq, Repr

/-- MAX_QUEUE_SIZE of TranscriptManager. -/
def MAX_QUEUE_SIZE : Nat := 500

/-- BATCH_SIZE of TranscriptManager. -/
def BATCH_SIZE : Nat := 10

/-- The overflow-drop-then-push portion of writeTranscript. -/
def pushWithCap (d : QueuedTranscript) (s : TMState) : TMState :=
  let s1 :=
    if MAX_QUEUE_SIZE ≤ s.batchQueue.length then
      { s with batchQueue := s.batchQueue.tail,
               droppedTranscriptCount := s.droppedTranscriptCount + 1 }
    else s
  { s1 with batchQueue := s1.batchQueue ++ [d] }

/-- The synchronous prefix of writeTranscript: the final-only filter and
the capped push. -/
def enqueueTranscript (d : QueuedTranscript) (s : TMState) : TMState :=
  if !d.isFinal then s else pushWithCap d s

/-- Result discriminator of a flush: clean, thrown for a missing
organization id, or thrown for a failed batch insert. -/
inductive FlushOutcome
  | ok
  | orgMissing
  | insertFailed
  deriving DecidableEq, Repr

/-- TranscriptManager.flush.  `orgLookup` is the outcome of the lazy
organization lookup (none = lookup failed or the room row holds no
organization id); `insertOk` whether the batch insert succeeds;
`duringLoad` and `duringInsert` the writes interleaving at the two
awaits.  Returns the new state, the inserted rows, and the outcome. -/
def flush (orgLookup : Option Nat) (insertOk : Bool)
    (duringLoad duringInsert : List QueuedTranscript) (s : TMState) :
    TMState × List TranscriptionRecord × FlushOutcome :=
  let s0 := { s with batchTimer := false }
  if s0.batchQueue.isEmpty then (s0, [], FlushOutcome.ok)
  else
    let batch := s0.batchQueue
    let s1 := { s0 with batchQueue := [] }
    let s2 :=
      if s1.organizationId.isNone then
        let si := duringLoad.foldl (fun t d => enqueueTranscript d t) s1
        { si with organizationId := orgLookup }
      else s1
    match s2.organizationId with
    | none =>
        ({ s2 with batchQueue := batch ++ s2.batchQueue }, [], FlushOutcome.orgMissing)
    | some org =>
        let records := batch.map fun item =>
          { organization_id := org, participant_id := item.participantId,
            transcript_text := item.text, is_final := item.isFinal,
            relative_timestamp := item.timestamp - s.t0,
            timestamp := item.timestamp }
        let s3 := duringInsert.foldl (fun t d => enqueueTranscript d t) s2
        if insertOk then (s3, records, FlushOutcome.ok)
        else if s3.batchQueue.length + batch.length ≤ MAX_QUEUE_SIZE then
          ({ s3 with batchQueue := batch ++ s3.batchQueue }, [],
            FlushOutcome.insertFailed)
        else (s3, [], FlushOutcome.insertFailed)

/-- TranscriptManager.writeTranscript: filter non-final, capped push,
then flush at the batch size or arm the batch timer. -/
def writeTranscript (d : QueuedTranscript) (orgLookup : Option Nat)
    (insertOk : Bool) (s : TMState) :
    TMState × List TranscriptionRecord × FlushOutcome :=
  if !d.isFinal then (s, [], FlushOutcome.ok)
  else
    let s1 := pushWithCap d s
    if BATCH_SIZE ≤ s1.batchQueue.length then flush orgLookup insertOk [] [] s1
    else if !s1.batchTimer then ({ s1 with batchTimer := true }, [], FlushOutcome.ok)
    else (s1, [], FlushOutcome.ok)

/-- An operation on a TranscriptManager: a writeTranscript call or a
flush call (by the batch timer or stop()), each with the oracle outcomes
of its store accesses; operations run to completion, one at a time. -/
inductive TMOp
  | write (d : QueuedTranscript) (orgLookup : Option Nat) (insertOk : Bool)
  | flushCall (orgLookup : Option Nat) (insertOk : Bool)
  deriving DecidableEq, Repr

/-- State reached by one operation. -/
def runTMOp (s : TMState) : TMOp → TMState
  | TMOp.write d org ok => (writeTranscript d org ok s).1
  | TMOp.flushCall org ok => (flush org ok [] [] s).1

/-- State reached by a sequence of operations. -/
def runTM (s : TMState) (ops : List TMOp) : TMState :=
  ops.foldl runTMOp s

/-- The capped push never grows the queue beyond the cap. -/
theorem pushWithCap_length_le {s : TMState} (d : QueuedTranscript)
    (h : s.batchQueue.length ≤ MAX_QUEUE_SIZE) :
    (pushWithCap d s).batchQueue.length ≤ MAX_QUEUE_SIZE := by
  unfold pushWithCap
  by_cases hfull : MAX_QUEUE_SIZE ≤ s.batchQueue.length
  · rw [if_pos hfull]
    have hlen : s.batchQueue.length = MAX_QUEUE_SIZE := Nat.le_antisymm h hfull
    have hpos : 0 < s.batchQueue.length := by
      rw [hlen]
      decide
    simp only [List.length_append, List.length_tail, List.length_singleton, hlen]
    decide
  · rw [if_neg hfull]
    have : s.batchQueue.length < MAX_QUEUE_SIZE := Nat.lt_of_not_le hfull
    simpa using this

/-- enqueueTranscript never grows the queue beyond the cap. -/
theorem enqueueTranscript_length_le {s : TMState} (d : QueuedTranscript)
    (h : s.batchQueue.length ≤ MAX_QUEUE_SIZE) :
    (enqueueTranscript d s).batchQueue.length ≤ MAX_QUEUE_SIZE := by
  unfold enqueueTranscript
  by_cases hfin : (!d.isFinal) = true
  · rwa [if_pos hfin]
  · rw [if_neg hfin]
    exact pushWithCap_length_le d h

/-- An uninterleaved flush never grows the queue beyond the cap. -/
theorem flush_seq_length_le (orgLookup : Option Nat) (insertOk : Bool)
    {s : TMState} (h : s.batchQueue.length ≤ MAX_QUEUE_SIZE) :
    (flush orgLookup insertOk [] [] s).1.batchQueue.length ≤ MAX_QUEUE_SIZE := by
  unfold flush
  by_cases hemp : s.batchQueue.isEmpty = true
  · simp only [hemp, if_true, if_pos]
    simpa using h
  · simp only [hemp, Bool.false_eq_true, if_false]
    by_cases horg : (s.organizationId.isNone) = true
    · simp only [horg, if_true, if_pos, List.foldl_nil]
      cases horacle : orgLookup with
      | none => simpa using h
      | some org =>
          by_cases hok : insertOk = true
          · simp [hok]
          · simp only [hok, Bool.false_eq_true, if_false]
            by_cases hcap :
                (0 + s.batchQueue.length ≤ MAX_QUEUE_SIZE)
            · simp only [List.length_nil] at hcap ⊢
              rw [if_pos hcap]
              simpa using h
            · simp only [List.length_nil] at hcap ⊢
              rw [if_neg hcap]
              simp
    · simp only [horg, Bool.false_eq_true, if_false]
      cases hcur : s.organizationId with
      | none =>
          rw [hcur] at horg
          exact absurd rfl horg
      | some org =>
          by_cases hok : insertOk = true
          · simp [hok]
          · simp only [hok, Bool.false_eq_true, if_false, List.foldl_nil]
            by_cases hcap : (0 + s.batchQueue.length ≤ MAX_QUEUE_SIZE)
            · simp only [List.length_nil] at hcap ⊢
              rw [if_pos hcap]
              simpa using h
            · simp only [List.length_nil] at hcap ⊢
              rw [if_neg hcap]
              simp

/-- writeTranscript never grows the queue beyond the cap. -/
theorem writeTranscript_length_le (d : QueuedTranscript) (orgLookup : Option Nat)
    (insertOk : Bool) {s : TMState} (h : s.batchQueue.length ≤ MAX_QUEUE_SIZE) :
    (writeTranscript d orgLookup insertOk s).1.batchQueue.length ≤ MAX_QUEUE_SIZE := by
  unfold writeTranscript
  by_cases hfin : (!d.isFinal) = true
  · rw [if_pos hfin]
    exact h
  · rw [if_neg hfin]
    have hp := pushWithCap_length_le d h
    by_cases hbs : BATCH_SIZE ≤ (pushWithCap d s).batchQueue.length
    · rw [if_pos hbs]
      exact flush_seq_length_le orgLookup insertOk hp
    · rw [if_neg hbs]
      by_cases ht : (!(pushWithCap d s).batchTimer) = true
      · rw [if_pos ht]
        exact hp
      · rw [if_neg ht]
        exact hp

/-- One TranscriptManager operation never grows the queue beyond the
cap. -/
theorem runTMOp_length_le {s : TMState} (op : TMOp)
    (h : s.batchQueue.length ≤ MAX_QUEUE_SIZE) :
    (runTMOp s op).batchQueue.length ≤ MAX_QUEUE_SIZE := by
  cases op with
  | write d org ok => exact writeTranscript_length_le d org ok h
  | flushCall org ok => exact flush_seq_length_le org ok h

/-- Oldest-drop equation: a final fragment arriving with the queue at the
cap drops the head and bumps the dropped counter. -/
theorem enqueue_at_cap (d : QueuedTranscript) (s : TMState)
    (hfin : d.isFinal = true)
    (hlen : s.batchQueue.length = MAX_QUEUE_SIZE) :
    (enqueueTranscript d s).batchQueue = s.batchQueue.tail ++ [d] ∧
    (enqueueTranscript d s).droppedTranscriptCount
      = s.droppedTranscriptCount + 1 := by
  unfold enqueueTranscript pushWithCap
  rw [hfin]
  simp only [Bool.not_true, Bool.false_eq_true, if_false]
  rw [if_pos (Nat.le_of_eq hlen.symm)]
  exact ⟨rfl, rfl⟩

/-- Failed-insert behavior of flush: with the organization id available
and the insert failing, the taken batch is prepended back exactly when
that stays within the cap, otherwise it is dropped; either way the error
is surfaced. -/
theorem flush_insert_failed (orgLookup : Option Nat)
    (duringInsert : List QueuedTranscript) (s : TMState) (org : Nat)
    (horg : s.organizationId = some org) (hne : s.batchQueue ≠ []) :
    ((if (duringInsert.foldl (fun t d => enqueueTranscript d t)
          { s with batchQueue := [], batchTimer := false }).batchQueue.length
          + s.batchQueue.length ≤ MAX_QUEUE_SIZE then
        (flush orgLookup false [] duringInsert s).1.batchQueue
          = s.batchQueue ++
            (duringInsert.foldl (fun t d => enqueueTranscript d t)
              { s with batchQueue := [], batchTimer := false }).batchQueue
      else
        (flush orgLookup false [] duringInsert s).1.batchQueue
          = (duringInsert.foldl (fun t d => enqueueTranscript d t)
              { s with batchQueue := [], batchTimer := false }).batchQueue) ∧
      (flush orgLookup false [] duringInsert s).2.2
        = FlushOutcome.insertFailed) := by
  have hemp : ¬ (s.batchQueue.isEmpty = true) := by
    simpa [List.isEmpty_iff] using hne
  unfold flush
  simp only [horg, Option.isNone_some, Bool.false_eq_true, if_false,
    List.isEmpty_iff, hne, Bool.not_true]
  split <;> simp_all

/-- Claim C6: over any sequence of writeTranscript and flush operations
(each running to completion) the pending queue never exceeds the cap of
500 rows; a final fragment arriving with the queue at the cap drops the
oldest pending row and bumps the dropped counter; and on a failed batch
insert the batch is prepended back only if that stays within the cap,
otherwise it is dropped, the error being surfaced either way. -/
theorem transcript_queue_bounded_spec :
    (∀ (s : TMState) (ops : List TMOp),
      s.batchQueue.length ≤ MAX_QUEUE_SIZE →
      (runTM s ops).batchQueue.length ≤ MAX_QUEUE_SIZE) ∧
    (∀ (d : QueuedTranscript) (s : TMState), d.isFinal = true →
      s.batchQueue.length = MAX_QUEUE_SIZE →
      (enqueueTranscript d s).batchQueue = s.batchQueue.tail ++ [d] ∧
      (enqueueTranscript d s).droppedTranscriptCount
        = s.droppedTranscriptCount + 1) ∧
    (∀ (orgLookup : Option Nat) (duringInsert : List QueuedTranscript)
       (s : TMState) (org : Nat),
      s.organizationId = some org → s.batchQueue ≠ [] →
      ((if (duringInsert.foldl (fun t d => enqueueTranscript d t)
            { s with batchQueue := [], batchTimer := false }).batchQueue.length
            + s.batchQueue.length ≤ MAX_QUEUE_SIZE then
          (flush orgLookup false [] duringInsert s).1.batchQueue
            = s.batchQueue ++
              (duringInsert.foldl (fun t d => enqueueTranscript d t)
                { s with batchQueue := [], batchTimer := false }).batchQueue
        else
          (flush orgLookup false [] duringInsert s).1.batchQueue
            = (duringInsert.foldl (fun t d => enqueueTranscript d t)
                { s with batchQueue := [], batchTimer := false }).batchQueue) ∧
        (flush orgLookup false [] duringInsert s).2.2
          = FlushOutcome.insertFailed)) := by
  refine ⟨?_, fun d s hfin hlen => enqueue_at_cap d s hfin hlen,
    fun orgLookup di s org horg hne => flush_insert_failed orgLookup di s org horg hne⟩
  intro s ops
  induction ops generalizing s with
  | nil => exact fun h => h
  | cons op rest ih =>
      intro h
      exact ih (runTMOp s op) (runTMOp_length_le op h)

/-- A concrete final transcript fragment. -/
def itemC6 : QueuedTranscript := ⟨1, "hello", true, 0⟩

/-- A TranscriptManager state whose queue is exactly at the cap. -/
def tmC6full : TMState :=
  ⟨List.replicate MAX_QUEUE_SIZE itemC6, some 1, 0, false, 0⟩

/-- A TranscriptManager state with one pending row and a loaded
organization id. -/
def tmC6fail : TMState := ⟨[itemC6], some 1, 0, false, 0⟩

/-- Witness for claim C6 at concrete states: a write on an empty manager
stays within the cap, a final fragment at the cap drops the oldest row,
and a failed insert surfaces the error. -/
theorem transcript_queue_bounded_spec_witness :
    (runTM ⟨[], some 1, 0, false, 0⟩
      [TMOp.write itemC6 none true]).batchQueue.length ≤ MAX_QUEUE_SIZE ∧
    (enqueueTranscript itemC6 tmC6full).batchQueue
      = tmC6full.batchQueue.tail ++ [itemC6] ∧
    (flush none false [] [] tmC6fail).2.2 = FlushOutcome.insertFailed := by
  have h := transcript_queue_bounded_spec
  exact ⟨h.1 ⟨[], some 1, 0, false, 0⟩ [TMOp.write itemC6 none true] (by decide),
    (h.2.1 itemC6 tmC6full (by decide) (by decide)).1,
    (h.2.2 none [] tmC6fail 1 rfl (by decide)).2⟩

/-- A concrete final transcript fragment for the overflow trace. -/
def itemC10 : QueuedTranscript := ⟨2, "x", true, 0⟩

/-- A TranscriptManager state at the cap whose organization id was never
loaded. -/
def tmC10 : TMState :=
  ⟨List.replicate MAX_QUEUE_SIZE itemC10, none, 0, false, 0⟩

/-- Claim C10: when the organization attribution cannot be resolved
during flush (lazy lookup fails or the room has none), no rows are
inserted, the whole taken batch is restored to the front of the queue
unconditionally — without the capacity check of the failed-insert path —
and the error is surfaced; hence no transcript is lost on this path but
the cap can be exceeded: a full queue flushed while nine writes interleave
at the lookup await ends with 509 > 500 pending rows. -/
theorem flush_org_missing_spec :
    (∀ (s : TMState) (insertOk : Bool)
       (duringLoad duringInsert : List QueuedTranscript),
      s.organizationId = none → s.batchQueue ≠ [] →
      (flush none insertOk duringLoad duringInsert s).1.batchQueue
        = s.batchQueue ++
          (duringLoad.foldl (fun t d => enqueueTranscript d t)
            { s with batchQueue := [], batchTimer := false }).batchQueue ∧
      (flush none insertOk duringLoad duringInsert s).2.1 = [] ∧
      (flush none insertOk duringLoad duringInsert s).2.2
        = FlushOutcome.orgMissing) ∧
    (flush none true (List.replicate 9 itemC10) [] tmC10).1.batchQueue.length = 509 ∧
    MAX_QUEUE_SIZE < 509 := by
  refine ⟨?_, by decide, by decide⟩
  intro s insertOk duringLoad duringInsert horg hne
  unfold flush
  simp only [horg, Option.isNone_none, if_true, List.isEmpty_iff, hne,
    Bool.false_eq_true, if_false]
  simp_all

/-- Witness for claim C10: flushing the capped no-organization manager
with one interleaved write restores the batch in front of the new row and
reports the missing organization. -/
theorem flush_org_missing_spec_witness :
    tmC10.organizationId = none ∧
    (flush none true [itemC10] [] tmC10).1.batchQueue
      = tmC10.batchQueue ++
        ([itemC10].foldl (fun t d => enqueueTranscript d t)
          { tmC10 with batchQueue := [], batchTimer := false }).batchQueue ∧
    (flush none true [itemC10] [] tmC10).2.2 = FlushOutcome.orgMissing := by
  have h := flush_org_missing_spec.1 tmC10 true [itemC10] [] rfl (by decide)
  exact ⟨rfl, h.1, h.2.2⟩

/-! ## Finalization (WorkerManager.handleCallEnd, src/services/worker-manager.ts)

The store-affecting steps of handleCallEnd, in code order: an
unconditional room update to completed with a fresh closed_at, the
deactivation of still-active participants, the fallback post-call job
insertion guarded by an existence check (PostCallJobScheduler.scheduleJobs
skips rooms without final transcripts), and the release of the room.  The
in-memory teardown steps (audio stop, transcript flush, disconnect) do
not touch these rows and are not modelled here. -/

/-- The canonical job set inserted by the fallback scheduler. -/
def postCallJobTypes : List (String × Nat) :=
  [("summary", 100), ("action_items", 90), ("sentiment", 70),
   ("speaker_analytics", 50)]

/-- PostCallJobScheduler.scheduleJobs: load the room's final transcripts;
if none, skip; otherwise insert the canonical four jobs. -/
def scheduleJobs (rid : Nat) (db : DB) : DB :=
  if (db.transcriptions.filter fun t =>
      decide (t.room_id = rid) && t.is_final).isEmpty then db
  else
    { db with post_call_jobs := db.post_call_jobs ++
        postCallJobTypes.map fun jt =>
          { room_id := rid, job_type := jt.1, priority := jt.2 } }

/-- The unconditional room UPDATE of handleCallEnd applied to one row. -/
def finalizeRoomRow (now : Int) (rid : Nat) (r : RoomRow) : RoomRow :=
  if decide (r.id = rid) then
    { r with status := RoomStatus.completed, closed_at := some now }
  else r

/-- The participants UPDATE of handleCallEnd applied to one row. -/
def finalizeParticipantRow (now : Int) (rid : Nat) (p : ParticipantRow) :
    ParticipantRow :=
  if decide (p.room_id = rid) && p.is_active then
    { p with is_active := false, left_at := some now }
  else p

/-- WorkerManager.handleCallEnd restricted to its store effects. -/
def handleCallEnd (w rid : Nat) (now : Int) (db : DB) : DB :=
  let db1 := { db with rooms := db.rooms.map (finalizeRoomRow now rid) }
  let db2 :=
    { db1 with participants := db1.participants.map (finalizeParticipantRow now rid) }
  let db3 :=
    if (db2.post_call_jobs.filter fun j => decide (j.room_id = rid)).isEmpty then
      scheduleJobs rid db2
    else db2
  releaseRoomFromWorker w rid db3

/-- finalizeRoomRow preserves row ids. -/
theorem finalizeRoomRow_id (now : Int) (rid : Nat) (r : RoomRow) :
    (finalizeRoomRow now rid r).id = r.id := by
  unfold finalizeRoomRow
  split <;> rfl

/-- scheduleJobs leaves the rooms table untouched. -/
theorem scheduleJobs_rooms (rid : Nat) (db : DB) :
    (scheduleJobs rid db).rooms = db.rooms := by
  unfold scheduleJobs
  split <;> rfl

/-- The rooms table after handleCallEnd: finalized then released. -/
theorem handleCallEnd_rooms (w rid : Nat) (now : Int) (db : DB) :
    (handleCallEnd w rid now db).rooms
      = (db.rooms.map (finalizeRoomRow now rid)).map (releaseUpdateRoom w rid) := by
  unfold handleCallEnd
  rw [release_rooms]
  congr 1
  split
  · rw [scheduleJobs_rooms]
  · rfl

/-- releaseUpdateRoom changes neither status nor closed_at. -/
theorem releaseUpdateRoom_keeps (w rid : Nat) (r : RoomRow) :
    (releaseUpdateRoom w rid r).status = r.status ∧
    (releaseUpdateRoom w rid r).closed_at = r.closed_at := by
  unfold releaseUpdateRoom
  split <;> exact ⟨rfl, rfl⟩

/-- finalizeRoomRow on the matching row. -/
theorem finalizeRoomRow_hit (now : Int) (rid : Nat) (r : RoomRow)
    (h : r.id = rid) :
    finalizeRoomRow now rid r
      = { r with status := RoomStatus.completed, closed_at := some now } := by
  unfold finalizeRoomRow
  rw [if_pos (decide_eq_true h)]

/-- Finalize-then-release leaves the row completed with the written
closed_at. -/
theorem release_of_finalized (w rid : Nat) (t : Int) (r : RoomRow)
    (h : r.id = rid) :
    (releaseUpdateRoom w rid (finalizeRoomRow t rid r)).status
      = RoomStatus.completed ∧
    (releaseUpdateRoom w rid (finalizeRoomRow t rid r)).closed_at = some t := by
  rw [finalizeRoomRow_hit t rid r h]
  have hk := releaseUpdateRoom_keeps w rid
    { r with status := RoomStatus.completed, closed_at := some t }
  exact ⟨hk.1, hk.2⟩

/-- A one-room store owned by worker 3 in processing status, about to be
finalized. -/
def dbC4 : DB :=
  { rooms := [⟨7, some 3, some 0, some 0, RoomStatus.processing, none, none, true, 0⟩],
    media_workers := [⟨3, WorkerStatus.active, some 7, 0⟩],
    participants := [], post_call_jobs := [], transcriptions := [] }

/-- Counterexample to claim C4 as stated: finalizing room 7 at time 100
writes closed_at = 100, but running handleCallEnd again at time 200
overwrites closed_at with 200 — the room update carries no condition on
the current status, so the first finalization's closed_at does not
survive. -/
theorem handle_call_end_closed_at_counterexample :
    (lookupRoom (handleCallEnd 3 7 100 dbC4) 7).map RoomRow.closed_at
      = some (some 100) ∧
    (lookupRoom (handleCallEnd 3 7 200 (handleCallEnd 3 7 100 dbC4)) 7).map
        RoomRow.closed_at = some (some 200) ∧
    (lookupRoom (handleCallEnd 3 7 200 (handleCallEnd 3 7 100 dbC4)) 7).map
        RoomRow.closed_at ≠ some (some 100) ∧
    (lookupRoom (handleCallEnd 3 7 200 (handleCallEnd 3 7 100 dbC4)) 7).map
        RoomRow.status = some RoomStatus.completed := by
  decide

/-- Claim C4 (amended): finalization is idempotent with respect to the
status — a second handleCallEnd leaves the room completed — but not with
respect to closed_at: the unconditional room update overwrites closed_at
with the second finalization's time. -/
theorem handle_call_end_second_run
    (db : DB) (w rid : Nat) (t1 t2 : Int) (room : RoomRow)
    (hroom : lookupRoom db rid = some room) :
    (lookupRoom (handleCallEnd w rid t2 (handleCallEnd w rid t1 db)) rid).map
        RoomRow.status = some RoomStatus.completed ∧
    (lookupRoom (handleCallEnd w rid t2 (handleCallEnd w rid t1 db)) rid).map
        RoomRow.closed_at = some (some t2) := by
  have hroom' : db.rooms.find? (fun r => decide (r.id = rid)) = some room := hroom
  have hid : room.id = rid := by
    have h := List.find?_some hroom'
    simpa using h
  have hlook : lookupRoom (handleCallEnd w rid t2 (handleCallEnd w rid t1 db)) rid
      = some (releaseUpdateRoom w rid (finalizeRoomRow t2 rid
          (releaseUpdateRoom w rid (finalizeRoomRow t1 rid room)))) := by
    unfold lookupRoom
    rw [handleCallEnd_rooms, handleCallEnd_rooms,
      find?_rooms_map _ _ _ (releaseUpdateRoom_id w rid),
      find?_rooms_map _ _ _ (finalizeRoomRow_id t2 rid),
      find?_rooms_map _ _ _ (releaseUpdateRoom_id w rid),
      find?_rooms_map _ _ _ (finalizeRoomRow_id t1 rid), hroom']
    rfl
  have hid1 : (releaseUpdateRoom w rid (finalizeRoomRow t1 rid room)).id = rid := by
    rw [releaseUpdateRoom_id, finalizeRoomRow_id, hid]
  have hfin := release_of_finalized w rid t2
    (releaseUpdateRoom w rid (finalizeRoomRow t1 rid room)) hid1
  rw [hlook]
  constructor
  · show some ((releaseUpdateRoom w rid (finalizeRoomRow t2 rid
      (releaseUpdateRoom w rid (finalizeRoomRow t1 rid room)))).status)
      = some RoomStatus.completed
    rw [hfin.1]
  · show some ((releaseUpdateRoom w rid (finalizeRoomRow t2 rid
      (releaseUpdateRoom w rid (finalizeRoomRow t1 rid room)))).closed_at)
      = some (some t2)
    rw [hfin.2]

/-- Witness for the amended claim C4: a double finalization of room 7
leaves it completed with the second run's closed_at 200. -/
theorem handle_call_end_second_run_witness :
    lookupRoom dbC4 7
      = some ⟨7, some 3, some 0, some 0, RoomStatus.processing, none, none, true, 0⟩ ∧
    (lookupRoom (handleCallEnd 3 7 200 (handleCallEnd 3 7 100 dbC4)) 7).map
        RoomRow.status = some RoomStatus.completed ∧
    (lookupRoom (handleCallEnd 3 7 200 (handleCallEnd 3 7 100 dbC4)) 7).map
        RoomRow.closed_at = some (some 200) := by
  have h := handle_call_end_second_run dbC4 3 7 100 200
    ⟨7, some 3, some 0, some 0, RoomStatus.processing, none, none, true, 0⟩ (by decide)
  exact ⟨by decide, h.1, h.2⟩

/-! ## Room discovery and de-duplication (src/services/worker-manager.ts,
room-subscriber.ts, room-poller.ts)

Each of the three notifiers filters its payload, then itself calls the
claim_room_for_worker RPC, and only on a successful claim invokes the
manager's room handler.  The de-duplication cache
(recentClaimAttempts/wasRecentlyAttempted) lives in the room handler,
i.e. it is consulted only after a notifier has already issued its claim
call.  The system state below logs every claim_room_for_worker
invocation. -/

/-- ROOM_CLAIM_CACHE_DURATION_MS (30000 ms), in seconds. -/
def ROOM_CLAIM_CACHE_DURATION : Int := 30

/-- Worker mode (config.mode). -/
inductive WorkerMode
  | transcription
  | aiJobs
  | both
  deriving DecidableEq, Repr

/-- The mode filter shared by the notifiers. -/
def shouldClaimRoom (mode : WorkerMode) (transcriptionEnabled : Bool) : Bool :=
  match mode with
  | WorkerMode.both => true
  | WorkerMode.transcription => transcriptionEnabled
  | WorkerMode.aiJobs => !transcriptionEnabled

/-- Manager-side state: the claim-attempt cache and the gates. -/
structure MgrState where
  recentClaimAttempts : List (Nat × Int)
  isProcessingRoom : Bool
  isShuttingDown : Bool
  deriving DecidableEq, Repr

/-- WorkerManager.wasRecentlyAttempted: some cached attempt for the room
is younger than the cache window. -/
def wasRecentlyAttempted (rid : Nat) (now : Int) (ms : MgrState) : Bool :=
  ms.recentClaimAttempts.any fun a =>
    decide (a.1 = rid) && decide (now - a.2 < ROOM_CLAIM_CACHE_DURATION)

/-- WorkerManager.recordClaimAttempt: append and keep only the last 50
entries. -/
def recordClaimAttempt (rid : Nat) (now : Int) (ms : MgrState) : MgrState :=
  let attempts := ms.recentClaimAttempts ++ [(rid, now)]
  { ms with recentClaimAttempts :=
      if 50 < attempts.length then attempts.drop (attempts.length - 50)
      else attempts }

/-- The room handler installed by runTranscriptionMode: ignore while
shutting down or processing, skip recently attempted rooms, otherwise
record the attempt and set the processing gate.  Returns whether the
notification was accepted for processing. -/
def roomHandler (rid : Nat) (now : Int) (ms : MgrState) : MgrState × Bool :=
  if ms.isShuttingDown || ms.isProcessingRoom then (ms, false)
  else if wasRecentlyAttempted rid now ms then (ms, false)
  else ({ recordClaimAttempt rid now ms with isProcessingRoom := true }, true)

/-- System state: the store, the manager, and a log of every
claim_room_for_worker invocation (room id, time). -/
structure SystemState where
  db : DB
  mgr : MgrState
  claimCalls : List (Nat × Int)
  deriving DecidableEq, Repr

/-- A notifier's claim: invoke the RPC, log the invocation. -/
def attemptClaim (w rid : Nat) (now : Int) (st : SystemState) :
    SystemState × Bool :=
  let res := claim_room_for_worker now w rid st.db
  ({ st with db := res.2, claimCalls := st.claimCalls ++ [(rid, now)] }, res.1)

/-- The realtime INSERT handler of RoomSubscriber: filter on claimable
payload status and mode, claim, and on success hand the room to the
manager's handler. -/
def realtimeInsertEvent (w : Nat) (mode : WorkerMode) (subscriberActive : Bool)
    (payload : RoomRow) (now : Int) (st : SystemState) : SystemState :=
  if !subscriberActive then st
  else if !(decide (payload.status = RoomStatus.pending) ||
      decide (payload.status = RoomStatus.active)) then st
  else if !shouldClaimRoom mode payload.transcription_enabled then st
  else
    let r := attemptClaim w payload.id now st
    if r.2 then { r.1 with mgr := (roomHandler payload.id now r.1.mgr).1 }
    else r.1

/-- The pg_notify payload emitted on the room_available channel by
notify_room_available (migration 20260105101209): room_id, room_name,
status and event — and nothing else; in particular the trigger emits no
transcription_enabled field. -/
structure NotifyPayload where
  room_id : Nat
  room_name : String
  status : RoomStatus
  event : String
  deriving DecidableEq, Repr

/-- The mode filter as the notify handler evaluates it: the handler reads
payload.transcription_enabled, a field the trigger never emits, so the
value is undefined (modelled none); the strict equality tests
`=== true` and `=== false` both fail on undefined, leaving only mode
both able to proceed. -/
def shouldClaimRoomNotify (mode : WorkerMode)
    (transcriptionEnabled : Option Bool) : Bool :=
  match mode with
  | WorkerMode.both => true
  | WorkerMode.transcription => decide (transcriptionEnabled = some true)
  | WorkerMode.aiJobs => decide (transcriptionEnabled = some false)

/-- The pg_notify handler of RoomSubscriber: filter on the payload's
status and mode (evaluated on the undefined transcription flag), claim,
and on success fetch the row and hand it to the manager's handler. -/
def notifyEvent (w : Nat) (mode : WorkerMode) (subscriberActive : Bool)
    (payload : NotifyPayload) (now : Int) (st : SystemState) : SystemState :=
  if !subscriberActive then st
  else if !(decide (payload.status = RoomStatus.pending) ||
      decide (payload.status = RoomStatus.active)) then st
  else if !shouldClaimRoomNotify mode none then st
  else
    let r := attemptClaim w payload.room_id now st
    if r.2 then
      match lookupRoom r.1.db payload.room_id with
      | some _ => { r.1 with mgr := (roomHandler payload.room_id now r.1.mgr).1 }
      | none => r.1
    else r.1

/-- The availability test of RoomPoller.pollForRoom's query: unowned or
stale owner, claimable status. -/
def pollClaimable (now : Int) (r : RoomRow) : Bool :=
  (decide (r.media_worker_id = none) || heartbeatStale now r) &&
    (decide (r.status = RoomStatus.pending) ||
      decide (r.status = RoomStatus.active))

/-- ORDER BY created_at ASC LIMIT 1. -/
def oldestBy (l : List RoomRow) : Option RoomRow :=
  l.foldl (fun acc r =>
    match acc with
    | none => some r
    | some b => if decide (r.created_at < b.created_at) then some r else some b)
    none

/-- One polling cycle of RoomPoller: query the oldest available room,
apply the mode filter, claim, and on success hand the room to the
manager's handler. -/
def pollEvent (w : Nat) (mode : WorkerMode) (isPolling : Bool) (now : Int)
    (st : SystemState) : SystemState :=
  if !isPolling then st
  else
    match oldestBy (st.db.rooms.filter (pollClaimable now)) with
    | none => st
    | some room =>
        if !shouldClaimRoom mode room.transcription_enabled then st
        else
          let r := attemptClaim w room.id now st
          if r.2 then { r.1 with mgr := (roomHandler room.id now r.1.mgr).1 }
          else r.1

/-- The pending room whose insert reaches both the realtime stream and
the notification channel. -/
def roomC3 : RoomRow := ⟨7, none, none, none, RoomStatus.pending, none, none, true, 0⟩

/-- Initial system state for the de-duplication trace. -/
def stC3 : SystemState :=
  { db := { rooms := [roomC3],
            media_workers := [⟨1, WorkerStatus.active, none, 0⟩],
            participants := [], post_call_jobs := [], transcriptions := [] },
    mgr := { recentClaimAttempts := [], isProcessingRoom := false,
             isShuttingDown := false },
    claimCalls := [] }

/-- Counterexample to claim C3 as stated, for a worker in mode both (the
mode whose notify filter passes on the trigger's payload, which carries
no transcription flag): the insert of room 7 fires both triggers; the
realtime notifier sees it at time 0 (claims successfully, handler
accepts) and the notify notifier at time 1 (the payload says pending, so
it calls claim_room too, which fails).  Two claim_room invocations for
the same room land one second apart, well inside the 30 s window — the
cache only guards the handler, not the notifiers' claim calls. -/
theorem dedup_window_counterexample :
    (notifyEvent 1 WorkerMode.both true ⟨7, "room-7", RoomStatus.pending, "INSERT"⟩ 1
      (realtimeInsertEvent 1 WorkerMode.both true roomC3 0 stC3)).claimCalls
      = [(7, 0), (7, 1)] ∧
    (1 : Int) - 0 < ROOM_CLAIM_CACHE_DURATION := by
  decide

/-- Claim C3 (amended): the de-duplication cache guards the manager's
room handler, not the notifiers' claim calls: each notifier issues its
own claim_room_for_worker invocation, so one room id can trigger several
claim attempts within the window; but once the handler has accepted a
room, a second handler invocation for the same room inside the window is
skipped — both while the processing gate is set and, the gate cleared,
through the cache entry recorded by the acceptance. -/
theorem room_handler_dedup_skip
    (ms : MgrState) (rid : Nat) (t t' : Int)
    (hacc : (roomHandler rid t ms).2 = true)
    (hwin : t' - t < ROOM_CLAIM_CACHE_DURATION) :
    (roomHandler rid t' (roomHandler rid t ms).1).2 = false ∧
    (roomHandler rid t'
      { (roomHandler rid t ms).1 with isProcessingRoom := false }).2 = false := by
  unfold roomHandler at hacc
  by_cases h1 : (ms.isShuttingDown || ms.isProcessingRoom) = true
  · rw [if_pos h1] at hacc
    exact absurd hacc Bool.false_ne_true
  · rw [if_neg h1] at hacc
    by_cases h2 : wasRecentlyAttempted rid t ms = true
    · rw [if_pos h2] at hacc
      exact absurd hacc Bool.false_ne_true
    · rw [if_neg h2] at hacc
      have hsd : ms.isShuttingDown = false := by
        rcases Bool.or_eq_false_iff.mp (Bool.eq_false_iff.mpr h1) with ⟨h, _⟩
        exact h
      have hstate : (roomHandler rid t ms).1
          = { recordClaimAttempt rid t ms with isProcessingRoom := true } := by
        unfold roomHandler
        rw [if_neg h1, if_neg h2]
      have hmem : (rid, t) ∈ (recordClaimAttempt rid t ms).recentClaimAttempts := by
        show (rid, t) ∈
          (if 50 < (ms.recentClaimAttempts ++ [(rid, t)]).length then
            (ms.recentClaimAttempts ++ [(rid, t)]).drop
              ((ms.recentClaimAttempts ++ [(rid, t)]).length - 50)
          else ms.recentClaimAttempts ++ [(rid, t)])
        by_cases hlen : 50 < (ms.recentClaimAttempts ++ [(rid, t)]).length
        · rw [if_pos hlen]
          have hle : (ms.recentClaimAttempts ++ [(rid, t)]).length - 50
              ≤ ms.recentClaimAttempts.length := by
            rw [List.length_append, List.length_singleton]
            omega
          rw [List.drop_append_of_le_length hle]
          exact List.mem_append_right _ (List.mem_singleton.mpr rfl)
        · rw [if_neg hlen]
          exact List.mem_append_right _ (List.mem_singleton.mpr rfl)
      have hrecent : wasRecentlyAttempted rid t'
          (recordClaimAttempt rid t ms) = true := by
        unfold wasRecentlyAttempted
        rw [List.any_eq_true]
        exact ⟨(rid, t), hmem, by simp [hwin]⟩
      constructor
      · rw [hstate]
        unfold roomHandler
        rw [if_pos (by simp)]
      · rw [hstate]
        show (roomHandler rid t'
          { recordClaimAttempt rid t ms with isProcessingRoom := false }).2 = false
        unfold roomHandler
        have hsd2 : (({ recordClaimAttempt rid t ms with isProcessingRoom := false } :
            MgrState).isShuttingDown
            || ({ recordClaimAttempt rid t ms with isProcessingRoom := false } :
            MgrState).isProcessingRoom) = false := by
          show (ms.isShuttingDown || false) = false
          rw [hsd]
          rfl
        rw [if_neg (by rw [hsd2]; exact Bool.false_ne_true)]
        have hrec2 : wasRecentlyAttempted rid t'
            ({ recordClaimAttempt rid t ms with isProcessingRoom := false }) = true :=
          hrecent
        rw [if_pos hrec2]

/-- Witness for the amended claim C3: a handler acceptance of room 7 at
time 0 makes a second handler invocation at time 1 — inside the 30 s
window, even with the processing gate cleared — skip the room. -/
theorem room_handler_dedup_skip_witness :
    (roomHandler 7 0 ⟨[], false, false⟩).2 = true ∧
    (1 : Int) - 0 < ROOM_CLAIM_CACHE_DURATION ∧
    (roomHandler 7 1
      { (roomHandler 7 0 ⟨[], false, false⟩).1 with isProcessingRoom := false }).2
      = false := by
  have h := room_handler_dedup_skip ⟨[], false, false⟩ 7 0 1 (by decide) (by decide)
  exact ⟨by decide, by decide, h.2⟩

end MediaWorker
